import Mathlib

/-!
Shallow embedding of the dispatch core of the dcl dynamic-compression
library (package glidepack): the algorithm/strategy model, the policy,
the four backend handlers, and the Manager job lifecycle
(SubmitJob / SubmitWithPolicy), translated from strategy.go,
decompress.go and the policy file.

Modelling conventions:
- Go byte buffers are `List Nat`; io.Writer / io.Reader handles are
  opaque `Option Nat` values (nil = none).
- Go sentinel errors are the constructors of `Err`; a nil error is
  `none : Option Err`.  Engine errors produced by the external codec
  libraries (qatzip, ISALgo, ixl-go) are oracle parameters.
- The external engines themselves (Write/Read/Close/Apply results) are
  oracle parameters to each handler, since their code is not part of
  this repository.
- Mutexes are elided: the model is the sequential semantics of one
  call, which is what the claims quantify over.
- The package-global variables nextID and freeIDs are folded into the
  Manager record; the handler instances held by the Manager are
  modelled as a request oracle `Req` passed to the Manager operations.
-/

namespace Glidepack

/-- Compression algorithms, from the `Algorithm` enumeration. -/
inductive Algorithm
  | DEFLATE
  | GZIP
  | LZ4
  | ZSTD
deriving DecidableEq

/-- Backend strategy kinds, from the `StrategyType` enumeration. -/
inductive StrategyType
  | QAT
  | ISAL
  | IAA
  | DEFAULT
deriving DecidableEq

/-- Direction of a job, from the `Direction` enumeration. -/
inductive Direction
  | COMPRESS
  | DECOMPRESS
deriving DecidableEq

/-- QAT handler mode, from the `QatMode` enumeration. -/
inductive QatMode
  | DIRECT
  | STREAM
deriving DecidableEq

/-- Errors.  The first four are the sentinel errors of strategy.go;
`eof` is io.EOF; `noWorkingStrategies` and `invalidStrategy` are the
Manager errors; `couldNotFindJob` and `doesNotSupport` are the ad-hoc
errors.New values inside the handlers; `other` stands for any engine
error not otherwise distinguished. -/
inductive Err
  | notAvailable
  | notInstalled
  | jobNotFound
  | unsupported
  | eof
  | noWorkingStrategies
  | invalidStrategy
  | couldNotFindJob
  | doesNotSupport
  | other (code : Nat)
deriving DecidableEq

/-- JobID is an int64 handle.  The model uses unbounded Int: the
counter starts at 0 and is bumped by 1 per job, so signed 64-bit
wraparound is outside the modelled range. -/
abbrev JobID := Int

def MAX_QAT_BINDINGS : Nat := 8
def MAX_IAA_BINDINGS : Nat := 8

def IAA_ALGORITHMS : List Algorithm := [.DEFLATE, .GZIP]
def QAT_ALGORITHMS : List Algorithm := [.DEFLATE, .GZIP, .ZSTD]
def ISAL_ALGORITHMS : List Algorithm := [.GZIP]
def DEFAULT_ALGORITHMS : List Algorithm := [.DEFLATE, .LZ4, .GZIP, .ZSTD]

/-- Translation of the `contains` helper of strategy.go. -/
def contains (slice : List Algorithm) (algorithm : Algorithm) : Bool :=
  match slice with
  | [] => false
  | a :: rest => if a = algorithm then true else contains rest algorithm

/-- Translation of `StrategyType.IsValid`: every member of the closed
enumeration is valid (the Go `int`-typed non-members are unreachable
from the declared constants). -/
def StrategyType.IsValid (s : StrategyType) : Bool :=
  match s with
  | .QAT | .ISAL | .IAA | .DEFAULT => true

/-- Translation of `strategyBank`. -/
def strategyBank : List StrategyType := [.QAT, .ISAL, .IAA, .DEFAULT]

/-- Translation of `GetStrategies`. -/
def GetStrategies : List StrategyType := strategyBank

/-- Caller-supplied configuration snapshot, from `JobParams`. -/
structure JobParams where
  a : Algorithm
  level : Int
  id : JobID
  JobType : Direction
  w : Option Nat
  r : Option Nat
deriving DecidableEq

/-- The zero value of JobParams (Go zero-initialisation). -/
def JobParams.zero : JobParams :=
  { a := .DEFLATE, level := 0, id := 0, JobType := .COMPRESS, w := none, r := none }

/-- One in-flight operation, from `Job`.  The bound handler interface
value `h` is modelled by the StrategyType that identifies it (the
Manager holds exactly one handler instance per kind). -/
structure Job where
  id : JobID
  p : List Nat
  JobType : Direction
  params : JobParams
  w : Option Nat
  r : Option Nat
  h : Option StrategyType
deriving DecidableEq

/-- Read-only view handed to a policy, from `PolicyParameters`. -/
structure PolicyParameters where
  BufferSize : Nat
  Strategies : List StrategyType
  JobParams : JobParams

/-- A policy, from `PolicyFunc`. -/
abbrev PolicyFunc := PolicyParameters → List StrategyType

/-- Translation of `BufferSizePolicy` (the shipped policy file of the
glidepack package, threshold 1500). -/
def BufferSizePolicy (params : PolicyParameters) : List StrategyType :=
  if params.BufferSize < 1500 then
    [.ISAL, .IAA, .QAT]
  else
    [.QAT, .IAA, .ISAL]

/-- Translation of `GetDefaultPolicy`. -/
def GetDefaultPolicy : PolicyFunc := BufferSizePolicy

/- Association-list finite maps standing for the Go maps keyed by
JobID.  Assignment shadows the previous binding, as a Go map store
does. -/

def lookupKey {α : Type} : List (Int × α) → Int → Option α
  | [], _ => none
  | kv :: rest, i => if kv.1 = i then some kv.2 else lookupKey rest i

def eraseKey {α : Type} (l : List (Int × α)) (i : Int) : List (Int × α) :=
  l.filter (fun kv => !decide (kv.1 = i))

def mapInsert {α : Type} (l : List (Int × α)) (i : Int) (v : α) : List (Int × α) :=
  (i, v) :: eraseKey l i

/- ---------------------------------------------------------------
Handler implementations.  Each Go handler struct holds maps from
JobID to live engine objects; the engine objects are opaque, so map
values are `Nat` handles (the handle value itself is irrelevant, the
model always stores 0 on insertion).  Engine call results are oracle
parameters.
--------------------------------------------------------------- -/

/-- DefaultHandler.Release: the software fallback releases nothing and
always returns nil. -/
def DefaultHandler.Release (_id : JobID) : Option Err := none

/-- IAAHandler state: `jobs` maps JobID to a live ixl BufWriter and
`readjobs` maps JobID to a live ixl Inflate. -/
structure IAAHandler where
  jobs : List (JobID × Nat)
  readjobs : List (JobID × Nat)
deriving DecidableEq

/-- Engine oracle for IAAHandler.Request: results of the ixl-go calls
made inside one Request. -/
structure IAAOracle where
  newDeflateWriterErr : Option Err
  newInflateErr : Option Err
  writeRes : Nat × Option Err
  readRes : Nat × Option Err

/-- Translation of IAAHandler.Request.  `ixlReady` is the result of
ixl.Ready(). -/
def IAAHandler.Request (ixlReady : Bool) (o : IAAOracle) (h : IAAHandler) (job : Job) :
    (Nat × Option Err) × IAAHandler :=
  if !ixlReady then ((0, some .notInstalled), h)
  else if !contains IAA_ALGORITHMS job.params.a then ((0, some .unsupported), h)
  else if h.jobs.length ≥ MAX_IAA_BINDINGS then ((0, some .notAvailable), h)
  else
    match job.params.JobType with
    | .COMPRESS =>
        if job.params.a = .DEFLATE ∧ o.newDeflateWriterErr ≠ none then
          ((0, o.newDeflateWriterErr), h)
        else if job.params.a = .DEFLATE ∨ job.params.a = .GZIP then
          (o.writeRes, { h with jobs := mapInsert h.jobs job.id 0 })
        else ((0, some .doesNotSupport), h)
    | .DECOMPRESS =>
        if job.params.a = .DEFLATE ∨ job.params.a = .GZIP then
          if o.newInflateErr ≠ none then ((0, o.newInflateErr), h)
          else (o.readRes, { h with readjobs := mapInsert h.readjobs job.id 0 })
        else ((0, some .doesNotSupport), h)

/-- Translation of IAAHandler.Release: only the compress-side map
`jobs` is consulted; `closeErr` is the result of w.Close(). -/
def IAAHandler.Release (closeErr : Option Err) (h : IAAHandler) (id : JobID) :
    Option Err × IAAHandler :=
  match lookupKey h.jobs id with
  | none => (some .couldNotFindJob, h)
  | some _ => (closeErr, { h with jobs := eraseKey h.jobs id })

/-- ISALHandler state: `jobs` maps JobID to a live isal Writer and
`readjobs` maps JobID to a live isal Reader. -/
structure ISALHandler where
  jobs : List (JobID × Nat)
  readjobs : List (JobID × Nat)
deriving DecidableEq

/-- Engine oracle for ISALHandler.Request. -/
structure ISALOracle where
  newWriterLevelErr : Option Err
  newReaderErr : Option Err
  writeRes : Nat × Option Err
  readRes : Nat × Option Err

/-- Translation of ISALHandler.Request.  `isalReady` is the result of
isal.Ready(). -/
def ISALHandler.Request (isalReady : Bool) (o : ISALOracle) (h : ISALHandler) (job : Job) :
    (Nat × Option Err) × ISALHandler :=
  if !isalReady then ((0, some .notInstalled), h)
  else if !contains ISAL_ALGORITHMS job.params.a then ((0, some .unsupported), h)
  else
    match job.params.JobType with
    | .COMPRESS =>
        if (lookupKey h.jobs job.id).isSome then
          (o.writeRes, { h with jobs := mapInsert h.jobs job.id 0 })
        else if o.newWriterLevelErr ≠ none then ((0, some .unsupported), h)
        else (o.writeRes, { h with jobs := mapInsert h.jobs job.id 0 })
    | .DECOMPRESS =>
        if (lookupKey h.readjobs job.id).isSome then
          (o.readRes, { h with readjobs := mapInsert h.readjobs job.id 0 })
        else if o.newReaderErr ≠ none then ((0, o.newReaderErr), h)
        else (o.readRes, { h with readjobs := mapInsert h.readjobs job.id 0 })

/-- Translation of ISALHandler.Release: consults both maps; the close
error of the reader overwrites the close error of the writer. -/
def ISALHandler.Release (wCloseErr rCloseErr : Option Err) (h : ISALHandler) (id : JobID) :
    Option Err × ISALHandler :=
  let writematch := (lookupKey h.jobs id).isSome
  let readmatch := (lookupKey h.readjobs id).isSome
  if !writematch ∧ !readmatch then (some .couldNotFindJob, h)
  else
    let e1 : Option Err := if writematch then wCloseErr else none
    let h1 := if writematch then { h with jobs := eraseKey h.jobs id } else h
    let e2 : Option Err := if readmatch then rCloseErr else e1
    let h2 := if readmatch then { h1 with readjobs := eraseKey h1.readjobs id } else h1
    (e2, h2)

/-- Per-job QAT state, from the QATJob struct: the bound job id, the
mode, and which of the writer / reader engine objects are non-nil. -/
structure QATJob where
  jobId : JobID
  mode : QatMode
  hasW : Bool
  hasR : Bool
deriving DecidableEq

/-- QatHandler state: `jobs` maps JobID to its QATJob. -/
structure QatHandler where
  jobs : List (JobID × QATJob)
deriving DecidableEq

/-- Translation of QatHandler.ready (a stub that always reports true). -/
def QatHandler.ready : Bool := true

/-- Engine oracle for the qatzip calls made inside one QAT Request. -/
structure QatOracle where
  newReaderErr : Option Err
  newQzBindingErr : Option Err
  applyWErr : Option Err
  applyWGzipErr : Option Err
  applyRErr : Option Err
  applyRGzipErr : Option Err
  writeRes : Nat × Option Err
  readRes : Nat × Option Err

/-- Translation of QatHandler.newQatJob.  Returns the new QATJob (none
stands for the Go nil pointer), the error, and the updated handler
state. -/
def QatHandler.newQatJob (o : QatOracle) (h : QatHandler) (job : Job) (mode : QatMode) :
    Option QATJob × Option Err × QatHandler :=
  if h.jobs.length ≥ MAX_QAT_BINDINGS then (none, some .notAvailable, h)
  else if mode = .DIRECT ∧ job.w = none ∧ job.r ≠ none ∧ o.newReaderErr ≠ none then
    (none, o.newReaderErr, h)
  else if mode = .STREAM ∧ o.newQzBindingErr ≠ none then
    (none, o.newQzBindingErr, h)
  else
    let qat : QATJob :=
      { jobId := job.id, mode := mode, hasW := job.w.isSome,
        hasR := !job.w.isSome && job.r.isSome }
    (some qat, none, { h with jobs := mapInsert h.jobs job.id qat })

/-- Result of one QatHandler.Request call.  `nilPanic` is the runtime
fault of dereferencing the nil QATJob pointer that newQatJob returns
on failure: Request never checks the newQatJob error before using the
pointer. -/
inductive QatReqResult
  | ok (n : Nat) (err : Option Err)
  | nilPanic
deriving DecidableEq

/-- Translation of QatHandler.Request (direct mode). -/
def QatHandler.Request (o : QatOracle) (h : QatHandler) (job : Job) :
    QatReqResult × QatHandler :=
  if !QatHandler.ready then (.ok 0 (some .notInstalled), h)
  else if !contains QAT_ALGORITHMS job.params.a then (.ok 0 (some .unsupported), h)
  else
    let setup : Option (Option Err) × QatHandler :=
      -- none: panic; some e: the setup section returned early with e;
      -- the pair also carries the handler state after setup
      match lookupKey h.jobs job.id with
      | some _ => (some none, h)
      | none =>
          let created := QatHandler.newQatJob o h job .DIRECT
          match created.1 with
          | none => (none, created.2.2)
          | some _ =>
              let h1 := created.2.2
              match job.params.JobType with
              | .COMPRESS =>
                  if o.applyWErr ≠ none then (some (some .unsupported), h1)
                  else if job.params.a = .GZIP ∧ o.applyWGzipErr ≠ none then
                    (some o.applyWGzipErr, h1)
                  else if created.2.1 ≠ none then (some created.2.1, h1)
                  else (some none, h1)
              | .DECOMPRESS =>
                  if o.applyRErr ≠ none then (some (some .unsupported), h1)
                  else if job.params.a = .GZIP ∧ o.applyRGzipErr ≠ none then
                    (some o.applyRGzipErr, h1)
                  else (some none, h1)
    match setup.1 with
    | none => (.nilPanic, setup.2)
    | some (some e) => (.ok 0 (some e), setup.2)
    | some none =>
        match job.params.JobType with
        | .COMPRESS =>
            let wr := o.writeRes
            if wr.2 ≠ none then (.ok 0 wr.2, setup.2)
            else (.ok wr.1 wr.2, setup.2)
        | .DECOMPRESS =>
            let rr := o.readRes
            if rr.2 ≠ none ∧ rr.2 ≠ some .eof then (.ok 0 rr.2, setup.2)
            else (.ok rr.1 rr.2, setup.2)

/-- Translation of QatHandler.findJob: a linear scan of the map values
comparing the stored job id. -/
def QatHandler.findJob (h : QatHandler) (id : JobID) : Option QATJob :=
  (h.jobs.find? (fun kv => decide (kv.2.jobId = id))).map (fun kv => kv.2)

/-- Translation of QatHandler.Release.  `wCloseErr`, `rCloseErr` and
`bCloseErr` are the results of the respective Close calls.  On a close
error the entry is returned without being deleted. -/
def QatHandler.Release (wCloseErr rCloseErr bCloseErr : Option Err) (h : QatHandler)
    (id : JobID) : Option Err × QatHandler :=
  match QatHandler.findJob h id with
  | none => (some .jobNotFound, h)
  | some qjob =>
      let e : Option Err :=
        if qjob.mode = .DIRECT then
          if qjob.hasW then wCloseErr
          else if qjob.hasR then rCloseErr
          else none
        else bCloseErr
      if e ≠ none then (e, h)
      else (none, { h with jobs := eraseKey h.jobs id })

/- ---------------------------------------------------------------
Manager and job lifecycle.
--------------------------------------------------------------- -/

/-- The Manager.  The package-global id-allocation variables nextID
and freeIDs are folded into this record; the four handler instances
are modelled as the request oracle passed to the submit operations. -/
structure Manager where
  strategies : List StrategyType
  GlobalPolicy : PolicyFunc
  jobs : List (JobID × Job)
  nextID : Int
  freeIDs : List Int

/-- Translation of createJob restricted to the id computation: both
branches set uniqueID to 1 and add 1 to nextID; the line that would
pop a recycled id off freeIDs is commented out in the source, so the
free list is read only for the length test and never consulted for
the minted value.  Returns (minted id, new nextID). -/
def createJobId (nextID : Int) (freeIDs : List Int) : Int × Int :=
  if freeIDs.length > 0 then
    (nextID + 1, nextID + 1)
  else
    (nextID + 1, nextID + 1)

/-- Translation of createJob: mint an id and return a zero Job
carrying it, together with the updated Manager. -/
def createJob (m : Manager) : Job × Manager :=
  let r := createJobId m.nextID m.freeIDs
  ({ id := r.1, p := [], JobType := .COMPRESS, params := JobParams.zero,
     w := none, r := none, h := none },
   { m with nextID := r.2 })

/-- Translation of freeJobID: append the id to the free list. -/
def freeJobID (m : Manager) (id : JobID) : Manager :=
  { m with freeIDs := m.freeIDs ++ [id] }

/-- The per-call behaviour of the four handlers as seen by the
Manager: Request of the handler selected by a StrategyType, on a job,
gives a byte count and an error. -/
abbrev Req := StrategyType → Job → Nat × Option Err

/-- Result of one SubmitWithPolicy call: the Go return values
(n, id, err), the Manager state after the call, and two ghost
observations used only by the theorems: `released` records each
handler Release call made (handler kind and job id, in order), and
`tried` records each strategy whose Request was invoked, in order. -/
structure SubmitResult where
  n : Nat
  id : JobID
  err : Option Err
  m : Manager
  released : List (StrategyType × JobID)
  tried : List StrategyType

/-- Ghost bookkeeping: prepend a tried strategy to a result. -/
def withTried (s : StrategyType) (r : SubmitResult) : SubmitResult :=
  { r with tried := s :: r.tried }

/-- The candidate loop of Manager.SubmitWithPolicy, translated
line by line from the source: validate the strategy, call Request,
skip on not-available / unsupported / not-installed, abort on any
other non-nil non-EOF error, otherwise bind and register the job and
apply the completion rule. -/
def tryStrategies (req : Req) (m : Manager) (job : Job) :
    List StrategyType → SubmitResult
  | [] =>
      { n := 0, id := job.id, err := some .noWorkingStrategies, m := m,
        released := [], tried := [] }
  | s :: rest =>
      if s.IsValid = false then
        { n := 0, id := job.id, err := some .invalidStrategy, m := m,
          released := [], tried := [] }
      else
        let r := req s job
        if r.2 = some .notAvailable ∨ r.2 = some .unsupported then
          withTried s (tryStrategies req m job rest)
        else if r.2 = some .notInstalled then
          withTried s (tryStrategies req m job rest)
        else if r.2 ≠ none ∧ r.2 ≠ some .eof then
          { n := 0, id := job.id, err := r.2, m := m, released := [], tried := [s] }
        else
          let job1 := { job with h := some s }
          let m1 := { m with jobs := mapInsert m.jobs job1.id job1 }
          if (job1.params.JobType = .DECOMPRESS ∧ r.2 = some .eof) ∨
             (job1.params.JobType = .COMPRESS ∧ r.2 = none) then
            let m2 := { m1 with jobs := eraseKey m1.jobs job1.id }
            let m3 := freeJobID m2 job1.id
            { n := r.1, id := job1.id, err := r.2, m := m3,
              released := [(s, job1.id)], tried := [s] }
          else
            { n := r.1, id := job1.id, err := r.2, m := m1,
              released := [], tried := [s] }

/-- The new-operation path of Manager.SubmitWithPolicy: build the
policy parameters, create the job, bind buffer and params, query the
policy and run the candidate loop. -/
def submitNew (req : Req) (m : Manager) (p : List Nat) (jp : JobParams)
    (policy : PolicyFunc) : SubmitResult :=
  let params : PolicyParameters :=
    { BufferSize := p.length, Strategies := m.strategies, JobParams := jp }
  let created := createJob m
  let job := { created.1 with p := p, params := jp, w := jp.w, r := jp.r }
  let priority := policy params
  tryStrategies req created.2 job priority

/-- Translation of Manager.SubmitWithPolicy.  If jp.id identifies a
registered Job and the direction is decompress, the call is a
continuation: update the buffer of the registered job in place,
re-invoke the bound handler, and on io.EOF release, deregister and
free the id.  Otherwise run the new-operation path. -/
def Manager.SubmitWithPolicy (m : Manager) (req : Req) (p : List Nat)
    (jp : JobParams) (policy : PolicyFunc) : SubmitResult :=
  match lookupKey m.jobs jp.id with
  | some currentJob =>
      if jp.JobType = .DECOMPRESS then
        let cur := { currentJob with p := p }
        let m1 := { m with jobs := mapInsert m.jobs jp.id cur }
        match cur.h with
        | some s =>
            let r := req s cur
            if r.2 = some .eof then
              let m2 := { m1 with jobs := eraseKey m1.jobs cur.id }
              let m3 := freeJobID m2 cur.id
              { n := r.1, id := cur.id, err := r.2, m := m3,
                released := [(s, cur.id)], tried := [s] }
            else
              { n := r.1, id := cur.id, err := r.2, m := m1,
                released := [], tried := [s] }
        | none =>
            -- a registered job always has a bound handler; calling
            -- Request through a nil interface would fault
            { n := 0, id := cur.id, err := some (.other 0), m := m1,
              released := [], tried := [] }
      else submitNew req m p jp policy
  | none => submitNew req m p jp policy

/-- Translation of Manager.SubmitJob: submit under the global policy. -/
def Manager.SubmitJob (m : Manager) (req : Req) (p : List Nat) (jp : JobParams) :
    SubmitResult :=
  Manager.SubmitWithPolicy m req p jp m.GlobalPolicy

/-- The request behaviour of the four concrete handlers assembled into
a single Req oracle, as Manager.getHandler dispatches it.  Handler
state evolution within one call is irrelevant to the claims proved
below (no strategy appears twice in any policy list involved), so each
handler is consulted at its given state.  A QAT nilPanic aborts the Go
program; its marker value here is unreachable in every theorem that
uses this assembly. -/
def reqOfHandlers (ixlReady isalReady : Bool) (oIaa : IAAOracle) (oIsal : ISALOracle)
    (oQat : QatOracle) (hIaa : IAAHandler) (hIsal : ISALHandler) (hQat : QatHandler)
    (defaultReq : Job → Nat × Option Err) : Req :=
  fun s job =>
    match s with
    | .QAT =>
        match (QatHandler.Request oQat hQat job).1 with
        | .ok n e => (n, e)
        | .nilPanic => (0, some (.other 0))
    | .IAA => (IAAHandler.Request ixlReady oIaa hIaa job).1
    | .ISAL => (ISALHandler.Request isalReady oIsal hIsal job).1
    | .DEFAULT => defaultReq job

/- ---------------------------------------------------------------
Standalone model of the id-allocation state machine for the claims
about createJob / freeJobID interleavings.
--------------------------------------------------------------- -/

/-- The package-global id-allocation state. -/
structure IdState where
  nextID : Int
  freeIDs : List Int

/-- One id-allocation event: a createJob call or a freeJobID call. -/
inductive IdOp
  | create
  | free (id : Int)

/-- Run one id-allocation event; returns the new state and the list of
ids minted by the event (empty or a singleton). -/
def stepIdOp (st : IdState) : IdOp → IdState × List Int
  | .create =>
      let r := createJobId st.nextID st.freeIDs
      ({ st with nextID := r.2 }, [r.1])
  | .free i => ({ st with freeIDs := st.freeIDs ++ [i] }, [])

/-- Run a sequence of id-allocation events, collecting every minted id
in order. -/
def runIdOps (st : IdState) : List IdOp → IdState × List Int
  | [] => (st, [])
  | op :: ops =>
      let r := stepIdOp st op
      let rest := runIdOps r.1 ops
      (rest.1, r.2 ++ rest.2)

/- ---------------------------------------------------------------
Derived vocabulary and concrete instances used by the theorems.
--------------------------------------------------------------- -/

/-- The skip class of the candidate loop: the errors on which
SubmitWithPolicy continues to the next candidate. -/
def isSkipErr (e : Option Err) : Bool :=
  decide (e = some Err.notAvailable) || decide (e = some Err.unsupported) ||
    decide (e = some Err.notInstalled)

/-- The Job that the new-operation path of SubmitWithPolicy builds
before entering the candidate loop. -/
def newJob (m : Manager) (p : List Nat) (jp : JobParams) : Job :=
  { id := m.nextID + 1, p := p, JobType := .COMPRESS, params := jp,
    w := jp.w, r := jp.r, h := none }

/-- A freshly initialised Manager (the state initManager builds, with
the handler instances factored out into the request oracle). -/
def mgr0 : Manager :=
  { strategies := GetStrategies, GlobalPolicy := GetDefaultPolicy, jobs := [],
    nextID := 0, freeIDs := [] }

/-- Fresh gzip compress parameters (what NewWriter submits). -/
def jpC : JobParams :=
  { a := .GZIP, level := 1, id := 0, JobType := .COMPRESS, w := some 0, r := none }

/-- Fresh gzip decompress parameters (what NewReader submits). -/
def jpD : JobParams :=
  { a := .GZIP, level := 1, id := 0, JobType := .DECOMPRESS, w := none, r := some 0 }

/-- Fresh lz4 compress parameters. -/
def jpL : JobParams :=
  { a := .LZ4, level := 1, id := 0, JobType := .COMPRESS, w := some 0, r := none }

/-- Decompress continuation parameters naming registered job 1. -/
def jpD1 : JobParams :=
  { a := .GZIP, level := 1, id := 1, JobType := .DECOMPRESS, w := none, r := some 0 }

/-- A registered decompress Job bound to the QAT handler, as left by a
first successful decompress call. -/
def jobD1 : Job :=
  { id := 1, p := [7], JobType := .COMPRESS, params := jpD1, w := none,
    r := some 0, h := some .QAT }

/-- A Manager holding the registered decompress Job jobD1. -/
def mgrCont : Manager :=
  { strategies := GetStrategies, GlobalPolicy := GetDefaultPolicy,
    jobs := [(1, jobD1)], nextID := 1, freeIDs := [] }

/-- Oracle: every handler reports end-of-stream at once. -/
def reqEof : Req := fun _ _ => (3, some .eof)

/-- Oracle: every handler succeeds. -/
def reqOk : Req := fun _ _ => (4, none)

/-- Oracle: every handler reports the skip-class unsupported error. -/
def reqSkip : Req := fun _ _ => (0, some .unsupported)

/-- Oracle: ISAL is out of capacity, IAA fails hard, QAT would
succeed. -/
def reqAbort : Req := fun s _ =>
  match s with
  | .ISAL => (0, some .notAvailable)
  | .IAA => (0, some (.other 5))
  | _ => (1, none)

/-- A policy pinned to the software fallback. -/
def polDefaultOnly : PolicyFunc := fun _ => [.DEFAULT]

/-- A policy returning ISAL, IAA, QAT in that order. -/
def polIIQ : PolicyFunc := fun _ => [.ISAL, .IAA, .QAT]

/-- Empty IAA handler state. -/
def iaa0 : IAAHandler := { jobs := [], readjobs := [] }

/-- Empty ISAL handler state. -/
def isal0 : ISALHandler := { jobs := [], readjobs := [] }

/-- Empty QAT handler state. -/
def qat0 : QatHandler := { jobs := [] }

/-- IAA engine oracle with no failures. -/
def oIaa0 : IAAOracle :=
  { newDeflateWriterErr := none, newInflateErr := none,
    writeRes := (5, none), readRes := (5, none) }

/-- ISAL engine oracle with no failures. -/
def oIsal0 : ISALOracle :=
  { newWriterLevelErr := none, newReaderErr := none,
    writeRes := (5, none), readRes := (5, none) }

/-- QAT engine oracle with no failures. -/
def oQat0 : QatOracle :=
  { newReaderErr := none, newQzBindingErr := none, applyWErr := none,
    applyWGzipErr := none, applyRErr := none, applyRGzipErr := none,
    writeRes := (5, none), readRes := (5, none) }

/-- A QAT handler whose binding pool is at the MAX_QAT_BINDINGS cap:
eight direct-mode compress bindings for jobs 1 through 8. -/
def qatFull : QatHandler :=
  { jobs :=
      [(1, { jobId := 1, mode := .DIRECT, hasW := true, hasR := false }),
       (2, { jobId := 2, mode := .DIRECT, hasW := true, hasR := false }),
       (3, { jobId := 3, mode := .DIRECT, hasW := true, hasR := false }),
       (4, { jobId := 4, mode := .DIRECT, hasW := true, hasR := false }),
       (5, { jobId := 5, mode := .DIRECT, hasW := true, hasR := false }),
       (6, { jobId := 6, mode := .DIRECT, hasW := true, hasR := false }),
       (7, { jobId := 7, mode := .DIRECT, hasW := true, hasR := false }),
       (8, { jobId := 8, mode := .DIRECT, hasW := true, hasR := false })] }

/-- An IAA handler whose compress binding pool is at the
MAX_IAA_BINDINGS cap. -/
def iaaFull : IAAHandler :=
  { jobs := [(1, 0), (2, 0), (3, 0), (4, 0), (5, 0), (6, 0), (7, 0), (8, 0)],
    readjobs := [] }

/-- A ninth gzip compress job arriving while a pool is full. -/
def jobNine : Job :=
  { id := 9, p := [104, 105], JobType := .COMPRESS,
    params := { a := .GZIP, level := 1, id := 0, JobType := .COMPRESS,
                w := some 0, r := none },
    w := some 0, r := none, h := none }

/-- Policy parameters with an empty buffer (below the 1500-byte
threshold of the shipped policy). -/
def ppSmall : PolicyParameters :=
  { BufferSize := 0, Strategies := GetStrategies, JobParams := jpC }

/- ---------------------------------------------------------------
Helper lemmas.
--------------------------------------------------------------- -/

theorem StrategyType.IsValid_true (s : StrategyType) : s.IsValid = true := by
  cases s <;> rfl

theorem isSkipErr_cases {e : Option Err} (h : isSkipErr e = true) :
    e = some .notAvailable ∨ e = some .unsupported ∨ e = some .notInstalled := by
  simp only [isSkipErr, Bool.or_eq_true, decide_eq_true_eq] at h
  tauto

theorem isSkipErr_false {e : Err} (h : isSkipErr (some e) = false) :
    e ≠ .notAvailable ∧ e ≠ .unsupported ∧ e ≠ .notInstalled := by
  refine ⟨?_, ?_, ?_⟩ <;> rintro rfl <;> simp [isSkipErr] at h

theorem lookupKey_nil {α : Type} (i : Int) : lookupKey ([] : List (Int × α)) i = none :=
  rfl

theorem eraseKey_of_lookup_none {α : Type} {l : List (Int × α)} {i : Int}
    (h : lookupKey l i = none) : eraseKey l i = l := by
  induction l with
  | nil => rfl
  | cons kv rest ih =>
      simp only [lookupKey] at h
      by_cases hk : kv.1 = i
      · simp [hk] at h
      · simp only [hk, if_false] at h
        simp [eraseKey, List.filter_cons, hk] at ih ⊢
        exact ih h

theorem eraseKey_eraseKey {α : Type} (l : List (Int × α)) (i : Int) :
    eraseKey (eraseKey l i) i = eraseKey l i := by
  simp [eraseKey, List.filter_filter]

theorem eraseKey_mapInsert {α : Type} (l : List (Int × α)) (i : Int) (v : α) :
    eraseKey (mapInsert l i v) i = eraseKey l i := by
  simp [mapInsert, eraseKey, List.filter_cons, List.filter_filter]

theorem mem_eraseKey {α : Type} {kv : Int × α} {l : List (Int × α)} {i : Int}
    (h : kv ∈ eraseKey l i) : kv ∈ l :=
  List.mem_of_mem_filter h

theorem mem_mapInsert {α : Type} {kv : Int × α} {l : List (Int × α)} {i : Int} {v : α}
    (h : kv ∈ mapInsert l i v) : kv = (i, v) ∨ kv ∈ l := by
  simp only [mapInsert, List.mem_cons] at h
  rcases h with h | h
  · exact Or.inl h
  · exact Or.inr (mem_eraseKey h)

theorem lookupKey_mem {α : Type} {l : List (Int × α)} {i : Int} {v : α}
    (h : lookupKey l i = some v) : (i, v) ∈ l := by
  induction l with
  | nil => simp [lookupKey] at h
  | cons kv rest ih =>
      simp only [lookupKey] at h
      by_cases hk : kv.1 = i
      · simp only [hk, if_true, Option.some.injEq] at h
        obtain ⟨k1, v1⟩ := kv
        simp only at hk h
        subst hk
        subst h
        exact List.mem_cons_self _ _
      · simp only [hk, if_false] at h
        exact List.mem_cons_of_mem _ (ih h)

theorem lookupKey_mapInsert_self {α : Type} (l : List (Int × α)) (i : Int) (v : α) :
    lookupKey (mapInsert l i v) i = some v := by
  simp [mapInsert, lookupKey]

theorem tryStrategies_nil (req : Req) (m : Manager) (job : Job) :
    tryStrategies req m job [] =
      { n := 0, id := job.id, err := some .noWorkingStrategies, m := m,
        released := [], tried := [] } := rfl

theorem tryStrategies_cons_skip (req : Req) (m : Manager) (job : Job)
    (s : StrategyType) (rest : List StrategyType)
    (hs : isSkipErr (req s job).2 = true) :
    tryStrategies req m job (s :: rest) =
      withTried s (tryStrategies req m job rest) := by
  rcases isSkipErr_cases hs with h | h | h <;>
    simp [tryStrategies, StrategyType.IsValid_true, h]

theorem tryStrategies_cons_abort (req : Req) (m : Manager) (job : Job)
    (s : StrategyType) (rest : List StrategyType) (e : Err)
    (he : (req s job).2 = some e) (hskip : isSkipErr (some e) = false)
    (heof : e ≠ .eof) :
    tryStrategies req m job (s :: rest) =
      { n := 0, id := job.id, err := some e, m := m, released := [],
        tried := [s] } := by
  obtain ⟨h1, h2, h3⟩ := isSkipErr_false hskip
  simp [tryStrategies, StrategyType.IsValid_true, he, h1, h2, h3, heof]

theorem tryStrategies_cons_compress_ok (req : Req) (m : Manager) (job : Job)
    (s : StrategyType) (rest : List StrategyType)
    (hdir : job.params.JobType = .COMPRESS) (hok : (req s job).2 = none) :
    tryStrategies req m job (s :: rest) =
      { n := (req s job).1, id := job.id, err := none,
        m := { m with jobs := eraseKey m.jobs job.id,
                      freeIDs := m.freeIDs ++ [job.id] },
        released := [(s, job.id)], tried := [s] } := by
  simp [tryStrategies, StrategyType.IsValid_true, hok, hdir, freeJobID,
    eraseKey_mapInsert]

theorem tryStrategies_cons_dec_eof (req : Req) (m : Manager) (job : Job)
    (s : StrategyType) (rest : List StrategyType)
    (hdir : job.params.JobType = .DECOMPRESS) (hok : (req s job).2 = some .eof) :
    tryStrategies req m job (s :: rest) =
      { n := (req s job).1, id := job.id, err := some .eof,
        m := { m with jobs := eraseKey m.jobs job.id,
                      freeIDs := m.freeIDs ++ [job.id] },
        released := [(s, job.id)], tried := [s] } := by
  simp [tryStrategies, StrategyType.IsValid_true, hok, hdir, freeJobID,
    eraseKey_mapInsert]

theorem tryStrategies_cons_dec_ok (req : Req) (m : Manager) (job : Job)
    (s : StrategyType) (rest : List StrategyType)
    (hdir : job.params.JobType = .DECOMPRESS) (hok : (req s job).2 = none) :
    tryStrategies req m job (s :: rest) =
      { n := (req s job).1, id := job.id, err := none,
        m := { m with jobs := mapInsert m.jobs job.id { job with h := some s } },
        released := [], tried := [s] } := by
  simp [tryStrategies, StrategyType.IsValid_true, hok, hdir]

theorem tryStrategies_append_skip (req : Req) (m : Manager) (job : Job)
    (pre rest : List StrategyType)
    (hpre : ∀ t ∈ pre, isSkipErr (req t job).2 = true) :
    tryStrategies req m job (pre ++ rest) =
      { tryStrategies req m job rest with
        tried := pre ++ (tryStrategies req m job rest).tried } := by
  induction pre with
  | nil => rfl
  | cons t pre ih =>
      have ht := hpre t (List.mem_cons_self _ _)
      have hrest : ∀ u ∈ pre, isSkipErr (req u job).2 = true := fun u hu =>
        hpre u (List.mem_cons_of_mem _ hu)
      rw [List.cons_append, tryStrategies_cons_skip req m job t (pre ++ rest) ht,
        ih hrest]
      simp [withTried]

theorem tryStrategies_skip_all (req : Req) (m : Manager) (job : Job)
    (prio : List StrategyType)
    (hall : ∀ t ∈ prio, isSkipErr (req t job).2 = true) :
    tryStrategies req m job prio =
      { n := 0, id := job.id, err := some .noWorkingStrategies, m := m,
        released := [], tried := prio } := by
  have h := tryStrategies_append_skip req m job prio [] hall
  simpa [tryStrategies_nil] using h

theorem createJobId_eq (n : Int) (f : List Int) : createJobId n f = (n + 1, n + 1) := by
  unfold createJobId
  split <;> rfl

theorem submitNew_eq (req : Req) (m : Manager) (p : List Nat) (jp : JobParams)
    (policy : PolicyFunc) :
    submitNew req m p jp policy =
      tryStrategies req { m with nextID := m.nextID + 1 } (newJob m p jp)
        (policy { BufferSize := p.length, Strategies := m.strategies,
                  JobParams := jp }) := by
  simp [submitNew, createJob, createJobId_eq, newJob, JobParams.zero]

theorem SubmitWithPolicy_new (m : Manager) (req : Req) (p : List Nat)
    (jp : JobParams) (policy : PolicyFunc)
    (hnew : lookupKey m.jobs jp.id = none ∨ jp.JobType = .COMPRESS) :
    m.SubmitWithPolicy req p jp policy = submitNew req m p jp policy := by
  rcases hnew with h | h
  · simp [Manager.SubmitWithPolicy, h]
  · unfold Manager.SubmitWithPolicy
    cases hl : lookupKey m.jobs jp.id with
    | none => rfl
    | some cur => simp [h]

/- ---------------------------------------------------------------
Claim theorems.
--------------------------------------------------------------- -/

/-- Claim C1: for every new (non-continuation) operation,
SubmitWithPolicy iterates the candidates of the policy in order;
candidates whose Request fails with not-available, unsupported or
not-installed are skipped, and the first candidate whose Request
fails with any other non-nil, non-EOF error makes the call abort and
return exactly that error, with no registry change and no release,
and with Request invoked on no later candidate: the trace of invoked
strategies is exactly the skipped ones followed by the aborting one. -/
theorem claim_C1 (m : Manager) (req : Req) (p : List Nat) (jp : JobParams)
    (policy : PolicyFunc) (pre post : List StrategyType) (s : StrategyType) (e : Err)
    (hnew : lookupKey m.jobs jp.id = none ∨ jp.JobType = .COMPRESS)
    (hpol : policy { BufferSize := p.length, Strategies := m.strategies,
                     JobParams := jp } = pre ++ s :: post)
    (hpre : ∀ t ∈ pre, isSkipErr (req t (newJob m p jp)).2 = true)
    (he : (req s (newJob m p jp)).2 = some e)
    (hskip : isSkipErr (some e) = false) (heof : e ≠ .eof) :
    m.SubmitWithPolicy req p jp policy =
      { n := 0, id := m.nextID + 1, err := some e,
        m := { m with nextID := m.nextID + 1 }, released := [],
        tried := pre ++ [s] } := by
  rw [SubmitWithPolicy_new m req p jp policy hnew, submitNew_eq, hpol]
  rw [tryStrategies_append_skip _ _ _ pre (s :: post) hpre]
  rw [tryStrategies_cons_abort _ _ _ s post e he hskip heof]
  simp [newJob]

/-- Claim C1 witness: with ISAL out of capacity and IAA failing hard,
a fresh gzip compress submit aborts with the IAA error after trying
exactly ISAL then IAA. -/
theorem claim_C1_witness :
    mgr0.SubmitWithPolicy reqAbort [1] jpC polIIQ =
      { n := 0, id := 1, err := some (.other 5),
        m := { mgr0 with nextID := 1 }, released := [],
        tried := [.ISAL, .IAA] } := by
  have h := claim_C1 mgr0 reqAbort [1] jpC polIIQ [.ISAL] [.QAT] .IAA (.other 5)
    (Or.inl rfl) rfl (by decide) rfl (by decide) (by decide)
  simpa using h

/-- Claim C2: for a new operation reaching candidate s after skipped
candidates, (a) a compress Job whose Request succeeds is released on
its bound handler and removed from the registry within the same call
(the registry is left as it was, the release trace names s and the
fresh id); (b) a decompress Job whose Request reports io.EOF on its
very first call likewise; (c) a decompress Job whose Request succeeds
without end-of-stream remains registered after the call returns. -/
theorem claim_C2 (m : Manager) (req : Req) (p : List Nat) (jp : JobParams)
    (policy : PolicyFunc) (pre post : List StrategyType) (s : StrategyType)
    (hnew : lookupKey m.jobs jp.id = none ∨ jp.JobType = .COMPRESS)
    (hfresh : lookupKey m.jobs (m.nextID + 1) = none)
    (hpol : policy { BufferSize := p.length, Strategies := m.strategies,
                     JobParams := jp } = pre ++ s :: post)
    (hpre : ∀ t ∈ pre, isSkipErr (req t (newJob m p jp)).2 = true) :
    (jp.JobType = .COMPRESS → (req s (newJob m p jp)).2 = none →
      m.SubmitWithPolicy req p jp policy =
        { n := (req s (newJob m p jp)).1, id := m.nextID + 1, err := none,
          m := { m with nextID := m.nextID + 1,
                        freeIDs := m.freeIDs ++ [m.nextID + 1] },
          released := [(s, m.nextID + 1)], tried := pre ++ [s] }) ∧
    (jp.JobType = .DECOMPRESS → (req s (newJob m p jp)).2 = some .eof →
      m.SubmitWithPolicy req p jp policy =
        { n := (req s (newJob m p jp)).1, id := m.nextID + 1, err := some .eof,
          m := { m with nextID := m.nextID + 1,
                        freeIDs := m.freeIDs ++ [m.nextID + 1] },
          released := [(s, m.nextID + 1)], tried := pre ++ [s] }) ∧
    (jp.JobType = .DECOMPRESS → (req s (newJob m p jp)).2 = none →
      m.SubmitWithPolicy req p jp policy =
        { n := (req s (newJob m p jp)).1, id := m.nextID + 1, err := none,
          m := { m with nextID := m.nextID + 1,
                        jobs := mapInsert m.jobs (m.nextID + 1)
                          { newJob m p jp with h := some s } },
          released := [], tried := pre ++ [s] }) := by
  refine ⟨?_, ?_, ?_⟩ <;> intro hdir hok <;>
    rw [SubmitWithPolicy_new m req p jp policy hnew, submitNew_eq, hpol,
      tryStrategies_append_skip _ _ _ pre (s :: post) hpre]
  · rw [tryStrategies_cons_compress_ok _ _ _ s post (by simp [newJob, hdir]) hok]
    simp [newJob, eraseKey_of_lookup_none hfresh]
  · rw [tryStrategies_cons_dec_eof _ _ _ s post (by simp [newJob, hdir]) hok]
    simp [newJob, eraseKey_of_lookup_none hfresh]
  · rw [tryStrategies_cons_dec_ok _ _ _ s post (by simp [newJob, hdir]) hok]
    simp [newJob]

/-- Claim C2 witness: with the fallback policy pinned to DEFAULT, a
successful compress leaves the registry empty after a release, an
immediately-EOF decompress likewise, and a successful decompress
without EOF stays registered under the fresh id 1. -/
theorem claim_C2_witness :
    ((mgr0.SubmitWithPolicy reqOk [1] jpC polDefaultOnly).m.jobs = [] ∧
     (mgr0.SubmitWithPolicy reqOk [1] jpC polDefaultOnly).released =
       [(.DEFAULT, 1)]) ∧
    ((mgr0.SubmitWithPolicy reqEof [1] jpD polDefaultOnly).m.jobs = [] ∧
     (mgr0.SubmitWithPolicy reqEof [1] jpD polDefaultOnly).released =
       [(.DEFAULT, 1)]) ∧
    ((lookupKey (mgr0.SubmitWithPolicy reqOk [1] jpD polDefaultOnly).m.jobs
        1).isSome = true ∧
     (mgr0.SubmitWithPolicy reqOk [1] jpD polDefaultOnly).released = []) := by
  refine ⟨⟨?_, ?_⟩, ⟨?_, ?_⟩, ?_, ?_⟩
  · rw [(claim_C2 mgr0 reqOk [1] jpC polDefaultOnly [] [] .DEFAULT
      (Or.inl rfl) rfl rfl (by decide)).1 rfl rfl]
    rfl
  · rw [(claim_C2 mgr0 reqOk [1] jpC polDefaultOnly [] [] .DEFAULT
      (Or.inl rfl) rfl rfl (by decide)).1 rfl rfl]
    rfl
  · rw [(claim_C2 mgr0 reqEof [1] jpD polDefaultOnly [] [] .DEFAULT
      (Or.inl rfl) rfl rfl (by decide)).2.1 rfl rfl]
    rfl
  · rw [(claim_C2 mgr0 reqEof [1] jpD polDefaultOnly [] [] .DEFAULT
      (Or.inl rfl) rfl rfl (by decide)).2.1 rfl rfl]
    rfl
  · rw [(claim_C2 mgr0 reqOk [1] jpD polDefaultOnly [] [] .DEFAULT
      (Or.inl rfl) rfl rfl (by decide)).2.2 rfl rfl]
    rfl
  · rw [(claim_C2 mgr0 reqOk [1] jpD polDefaultOnly [] [] .DEFAULT
      (Or.inl rfl) rfl rfl (by decide)).2.2 rfl rfl]

/-- Claim C3: when jp.id identifies a registered Job and the direction
is decompress, the call is a continuation: the result is independent
of the policy argument (the policy is never evaluated), the returned
id equals the id of the registered Job, the Request of the already
bound handler is re-invoked on the Job with its buffer replaced by the
new p, and on end-of-stream the Job is released on that handler,
removed from the registry and its id freed; otherwise the registry
keeps the Job with the replaced buffer. -/
theorem claim_C3 (m : Manager) (req : Req) (p : List Nat) (jp : JobParams)
    (policy : PolicyFunc) (cur : Job) (s : StrategyType)
    (hcur : lookupKey m.jobs jp.id = some cur)
    (hdec : jp.JobType = .DECOMPRESS)
    (hid : cur.id = jp.id)
    (hh : cur.h = some s) :
    (∀ policy2 : PolicyFunc,
      m.SubmitWithPolicy req p jp policy = m.SubmitWithPolicy req p jp policy2) ∧
    ((req s { cur with p := p }).2 = some .eof →
      m.SubmitWithPolicy req p jp policy =
        { n := (req s { cur with p := p }).1, id := jp.id, err := some .eof,
          m := { m with jobs := eraseKey m.jobs jp.id,
                        freeIDs := m.freeIDs ++ [jp.id] },
          released := [(s, jp.id)], tried := [s] }) ∧
    ((req s { cur with p := p }).2 ≠ some .eof →
      m.SubmitWithPolicy req p jp policy =
        { n := (req s { cur with p := p }).1, id := jp.id,
          err := (req s { cur with p := p }).2,
          m := { m with jobs := mapInsert m.jobs jp.id { cur with p := p } },
          released := [], tried := [s] }) := by
  obtain ⟨cid, cp, cjt, cparams, cw, cr, ch⟩ := cur
  dsimp only at hid hh
  subst hh
  subst hid
  have hstep : ∀ pol : PolicyFunc, m.SubmitWithPolicy req p jp pol =
      (let cur2 : Job :=
         { id := jp.id, p := p, JobType := cjt, params := cparams, w := cw,
           r := cr, h := some s }
       if (req s cur2).2 = some Err.eof then
         { n := (req s cur2).1, id := jp.id, err := some Err.eof,
           m := { m with
                  jobs := eraseKey (mapInsert m.jobs jp.id cur2) jp.id,
                  freeIDs := m.freeIDs ++ [jp.id] },
           released := [(s, jp.id)], tried := [s] }
       else
         { n := (req s cur2).1, id := jp.id,
           err := (req s cur2).2,
           m := { m with jobs := mapInsert m.jobs jp.id cur2 },
           released := [], tried := [s] }) := by
    intro pol
    simp only [Manager.SubmitWithPolicy, hcur, hdec, freeJobID]
    by_cases heq : (req s { id := jp.id, p := p, JobType := cjt, params := cparams, w := cw, r := cr, h := some s }).2 = some Err.eof <;>
      simp [heq]
  refine ⟨fun policy2 => (hstep policy).trans (hstep policy2).symm, ?_, ?_⟩
  · intro heof
    rw [hstep policy]
    simp only at heof ⊢
    simp [heof, eraseKey_mapInsert]
  · intro hne
    rw [hstep policy]
    simp only at hne ⊢
    simp [hne]

/-- Claim C3 witness: a continuation read on registered decompress job
1 that reports EOF returns id 1, releases on the bound QAT handler,
empties the registry and frees the id; and the call result does not
change when the policy argument is replaced. -/
theorem claim_C3_witness :
    mgrCont.SubmitWithPolicy reqEof [9] jpD1 polIIQ =
      mgrCont.SubmitWithPolicy reqEof [9] jpD1 polDefaultOnly ∧
    mgrCont.SubmitWithPolicy reqEof [9] jpD1 polIIQ =
      { n := 3, id := 1, err := some .eof,
        m := { mgrCont with jobs := [], freeIDs := [1] },
        released := [(.QAT, 1)], tried := [.QAT] } := by
  constructor
  · exact (claim_C3 mgrCont reqEof [9] jpD1 polIIQ jobD1 .QAT rfl rfl rfl rfl).1
      polDefaultOnly
  · rw [(claim_C3 mgrCont reqEof [9] jpD1 polIIQ jobD1 .QAT rfl rfl rfl rfl).2.1 rfl]
    simp [mgrCont, eraseKey, jobD1, jpD1, reqEof]

/-- Claim C7: a new operation in which every candidate of the policy
fails with a skip-class error returns the distinct all-strategies-
failed error with zero bytes processed, and the new Job is not left in
the registry: the registry is unchanged and the returned id is not
registered. -/
theorem claim_C7 (m : Manager) (req : Req) (p : List Nat) (jp : JobParams)
    (policy : PolicyFunc)
    (hnew : lookupKey m.jobs jp.id = none ∨ jp.JobType = .COMPRESS)
    (hfresh : lookupKey m.jobs (m.nextID + 1) = none)
    (hall : ∀ t ∈ policy { BufferSize := p.length, Strategies := m.strategies,
                           JobParams := jp },
              isSkipErr (req t (newJob m p jp)).2 = true) :
    m.SubmitWithPolicy req p jp policy =
      { n := 0, id := m.nextID + 1, err := some .noWorkingStrategies,
        m := { m with nextID := m.nextID + 1 }, released := [],
        tried := policy { BufferSize := p.length, Strategies := m.strategies,
                          JobParams := jp } } ∧
    lookupKey (m.SubmitWithPolicy req p jp policy).m.jobs
      (m.SubmitWithPolicy req p jp policy).id = none := by
  have h : m.SubmitWithPolicy req p jp policy =
      { n := 0, id := m.nextID + 1, err := some .noWorkingStrategies,
        m := { m with nextID := m.nextID + 1 }, released := [],
        tried := policy { BufferSize := p.length, Strategies := m.strategies,
                          JobParams := jp } } := by
    rw [SubmitWithPolicy_new m req p jp policy hnew, submitNew_eq,
      tryStrategies_skip_all _ _ _ _ hall]
    simp [newJob]
  refine ⟨h, ?_⟩
  rw [h]
  exact hfresh

/-- Claim C7 witness: with every handler reporting unsupported, a
fresh gzip compress submit under an ISAL-IAA-QAT policy returns the
all-strategies-failed error, zero bytes, an unchanged registry, and an
unregistered id. -/
theorem claim_C7_witness :
    mgr0.SubmitWithPolicy reqSkip [2] jpC polIIQ =
      { n := 0, id := 1, err := some .noWorkingStrategies,
        m := { mgr0 with nextID := 1 }, released := [],
        tried := [.ISAL, .IAA, .QAT] } ∧
    lookupKey (mgr0.SubmitWithPolicy reqSkip [2] jpC polIIQ).m.jobs
      (mgr0.SubmitWithPolicy reqSkip [2] jpC polIIQ).id = none := by
  have h := claim_C7 mgr0 reqSkip [2] jpC polIIQ (Or.inl rfl) rfl (by decide)
  refine ⟨?_, h.2⟩
  simpa using h.1

/-- Claim C4 counterexample: the claim reads the shipped default
policy as returning QAT, IAA, ISAL for buffer sizes below the
threshold; at buffer size 0 (below the 1500-byte threshold) the
policy actually returns ISAL, IAA, QAT. -/
theorem claim_C4_counterexample :
    BufferSizePolicy ppSmall ≠ [.QAT, .IAA, .ISAL] ∧
    BufferSizePolicy ppSmall = [.ISAL, .IAA, .QAT] := by decide

/-- Claim C4 amended: the shipped default policy is a deterministic
pure function of its PolicyParameters; below the 1500-byte threshold
it returns ISAL first, then IAA, then QAT (the deflate/gzip/zstd
backend) last, and at or above the threshold the reverse order QAT,
IAA, ISAL.  GetDefaultPolicy is exactly this function. -/
theorem claim_C4_amended (params : PolicyParameters) :
    (params.BufferSize < 1500 → BufferSizePolicy params = [.ISAL, .IAA, .QAT]) ∧
    (1500 ≤ params.BufferSize → BufferSizePolicy params = [.QAT, .IAA, .ISAL]) ∧
    GetDefaultPolicy = BufferSizePolicy ∧
    QAT_ALGORITHMS = [.DEFLATE, .GZIP, .ZSTD] := by
  refine ⟨fun h => ?_, fun h => ?_, rfl, rfl⟩
  · unfold BufferSizePolicy
    rw [if_pos h]
  · unfold BufferSizePolicy
    rw [if_neg (not_lt.mpr h)]

/-- Claim C4 amended witness: the policy evaluated at a buffer of size
0 and at a buffer of size 2000. -/
theorem claim_C4_amended_witness :
    BufferSizePolicy ppSmall = [.ISAL, .IAA, .QAT] ∧
    BufferSizePolicy { ppSmall with BufferSize := 2000 } = [.QAT, .IAA, .ISAL] :=
  ⟨(claim_C4_amended ppSmall).1 (by decide),
   (claim_C4_amended { ppSmall with BufferSize := 2000 }).2.1 (by decide)⟩

/-- Claim C5 counterexample: the claim asserts that every handler
implementation returns a job-not-found error from Release for an id it
never bound, but DefaultHandler.Release returns nil for id 7 (and
every other id). -/
theorem claim_C5_counterexample : DefaultHandler.Release 7 = none := rfl

/-- Claim C5 amended: the three stateful handlers (IAA, ISAL, QAT)
return a job-not-found error from Release for a JobID never bound in
them; the software DefaultHandler instead returns nil for every id. -/
theorem claim_C5_amended (id : JobID) :
    (∀ (closeErr : Option Err) (h : IAAHandler),
       lookupKey h.jobs id = none → lookupKey h.readjobs id = none →
       (IAAHandler.Release closeErr h id).1 = some .couldNotFindJob) ∧
    (∀ (wCloseErr rCloseErr : Option Err) (h : ISALHandler),
       lookupKey h.jobs id = none → lookupKey h.readjobs id = none →
       (ISALHandler.Release wCloseErr rCloseErr h id).1 = some .couldNotFindJob) ∧
    (∀ (wc rc bc : Option Err) (h : QatHandler),
       (∀ kv ∈ h.jobs, kv.2.jobId ≠ id) →
       (QatHandler.Release wc rc bc h id).1 = some .jobNotFound) ∧
    (∀ i : JobID, DefaultHandler.Release i = none) := by
  refine ⟨?_, ?_, ?_, fun _ => rfl⟩
  · intro ce h h1 h2
    simp [IAAHandler.Release, h1]
  · intro we re h h1 h2
    simp [ISALHandler.Release, h1, h2]
  · intro wc rc bc h hnb
    have hfind : QatHandler.findJob h id = none := by
      unfold QatHandler.findJob
      have : h.jobs.find? (fun kv => decide (kv.2.jobId = id)) = none := by
        rw [List.find?_eq_none]
        intro kv hkv
        simpa using hnb kv hkv
      rw [this]
      rfl
    simp [QatHandler.Release, hfind]

/-- Claim C5 amended witness: Release of the never-bound id 5 on empty
handler states. -/
theorem claim_C5_amended_witness :
    (IAAHandler.Release none iaa0 5).1 = some .couldNotFindJob ∧
    (ISALHandler.Release none none isal0 5).1 = some .couldNotFindJob ∧
    (QatHandler.Release none none none qat0 5).1 = some .jobNotFound ∧
    DefaultHandler.Release 5 = none := by
  obtain ⟨h1, h2, h3, h4⟩ := claim_C5_amended 5
  exact ⟨h1 none iaa0 rfl rfl, h2 none none isal0 rfl rfl,
    h3 none none none qat0 (by decide), h4 5⟩

/-- Claim C6 (code-bug evidence): with the QAT binding pool at its
MAX_QAT_BINDINGS cap, a ninth gzip compress Request makes newQatJob
fail with the not-available error, but Request never checks that error
and dereferences the nil QATJob pointer, faulting instead of returning
not-available (the pool itself is left unchanged, so the cap is not
exceeded); the IAA handler at its own cap behaves as the claim states,
returning not-available immediately with no state change and no work. -/
theorem claim_C6 :
    (QatHandler.Request oQat0 qatFull jobNine).1 = .nilPanic ∧
    (QatHandler.Request oQat0 qatFull jobNine).2 = qatFull ∧
    qatFull.jobs.length = MAX_QAT_BINDINGS ∧
    (QatHandler.newQatJob oQat0 qatFull jobNine .DIRECT).1 = none ∧
    (QatHandler.newQatJob oQat0 qatFull jobNine .DIRECT).2.1 = some .notAvailable ∧
    (IAAHandler.Request true oIaa0 iaaFull jobNine).1 = (0, some .notAvailable) ∧
    (IAAHandler.Request true oIaa0 iaaFull jobNine).2 = iaaFull := by decide

theorem runIdOps_strict (ops : List IdOp) (st : IdState) :
    List.Chain' (· < ·) (runIdOps st ops).2 ∧
    ∀ x ∈ (runIdOps st ops).2, st.nextID < x := by
  induction ops generalizing st with
  | nil => simp [runIdOps]
  | cons op ops ih =>
      cases op with
      | create =>
          have h2 := ih { st with nextID := st.nextID + 1 }
          have hrun : (runIdOps st (.create :: ops)).2 =
              (st.nextID + 1) ::
                (runIdOps { st with nextID := st.nextID + 1 } ops).2 := by
            simp [runIdOps, stepIdOp, createJobId_eq]
          rw [hrun]
          constructor
          · rw [List.chain'_cons']
            refine ⟨?_, h2.1⟩
            intro b hb
            exact h2.2 b (List.mem_of_mem_head? hb)
          · intro x hx
            rcases List.mem_cons.mp hx with h | h
            · omega
            · have := h2.2 x h
              simp only at this
              omega
      | free i =>
          have h2 := ih { st with freeIDs := st.freeIDs ++ [i] }
          simpa [runIdOps, stepIdOp] using h2

theorem runIdOps_freeIDs_irrelevant (ops : List IdOp) (n : Int) (f1 f2 : List Int) :
    (runIdOps ⟨n, f1⟩ ops).2 = (runIdOps ⟨n, f2⟩ ops).2 := by
  induction ops generalizing n f1 f2 with
  | nil => rfl
  | cons op ops ih =>
      cases op with
      | create =>
          simp only [runIdOps, stepIdOp, createJobId_eq]
          rw [ih (n + 1) f1 f2]
      | free i =>
          simp only [runIdOps, stepIdOp]
          rw [ih n (f1 ++ [i]) (f2 ++ [i])]

/-- Claim C8: JobID allocation is strictly monotonic.  Over any
interleaving of createJob and freeJobID events, the ids minted form a
strictly increasing chain, every minted id is strictly above the
starting counter (so a fresh id never equals the id of any live Job,
whose ids are at most the counter), and the minted ids are completely
independent of the free list, which freeJobID appends to but createJob
never consults: a released id is never reused.  At the Manager level,
createJob returns exactly nextID + 1, leaving the free list and the
registry untouched, and freeJobID only appends to the free list. -/
theorem claim_C8 (st : IdState) (ops : List IdOp) :
    List.Chain' (· < ·) (runIdOps st ops).2 ∧
    (∀ x ∈ (runIdOps st ops).2, st.nextID < x) ∧
    (∀ fs : List Int,
       (runIdOps { nextID := st.nextID, freeIDs := fs } ops).2 =
         (runIdOps st ops).2) ∧
    (∀ m : Manager,
       (createJob m).1.id = m.nextID + 1 ∧
       (createJob m).2.nextID = m.nextID + 1 ∧
       (createJob m).2.freeIDs = m.freeIDs ∧
       (createJob m).2.jobs = m.jobs) ∧
    (∀ (m : Manager) (i : JobID),
       (freeJobID m i).freeIDs = m.freeIDs ++ [i] ∧
       (freeJobID m i).nextID = m.nextID) := by
  obtain ⟨h1, h2⟩ := runIdOps_strict ops st
  refine ⟨h1, h2, ?_, ?_, ?_⟩
  · intro fs
    have := runIdOps_freeIDs_irrelevant ops st.nextID fs st.freeIDs
    simpa using this
  · intro m
    refine ⟨?_, ?_, rfl, rfl⟩ <;> simp [createJob, createJobId_eq]
  · intro m i
    exact ⟨rfl, rfl⟩

/-- Claim C8 witness: over the event trace create, free 1, create the
minted ids are the strictly increasing 1, 2 whatever the initial free
list holds, and createJob on a fresh Manager mints id 1. -/
theorem claim_C8_witness :
    List.Chain' (· < ·) (runIdOps ⟨0, []⟩ [.create, .free 1, .create]).2 ∧
    (0 : Int) < 1 ∧
    (runIdOps ⟨0, [5, 6, 7]⟩ [.create, .free 1, .create]).2 =
      (runIdOps ⟨0, []⟩ [.create, .free 1, .create]).2 ∧
    (createJob mgr0).1.id = 1 := by
  obtain ⟨h1, h2, h3, h4, _⟩ := claim_C8 ⟨0, []⟩ [.create, .free 1, .create]
  refine ⟨h1, h2 1 (by decide), h3 [5, 6, 7], ?_⟩
  have := (h4 mgr0).1
  simpa [mgr0] using this

theorem SubmitWithPolicy_cont (m : Manager) (req : Req) (p : List Nat)
    (jp : JobParams) (policy : PolicyFunc) (cur : Job) (s : StrategyType)
    (hcur : lookupKey m.jobs jp.id = some cur) (hdec : jp.JobType = .DECOMPRESS)
    (hh : cur.h = some s) :
    m.SubmitWithPolicy req p jp policy =
      (if (req s { cur with p := p }).2 = some Err.eof then
         { n := (req s { cur with p := p }).1, id := cur.id, err := some Err.eof,
           m := { m with
                  jobs := eraseKey (mapInsert m.jobs jp.id { cur with p := p }) cur.id,
                  freeIDs := m.freeIDs ++ [cur.id] },
           released := [(s, cur.id)], tried := [s] }
       else
         { n := (req s { cur with p := p }).1, id := cur.id,
           err := (req s { cur with p := p }).2,
           m := { m with jobs := mapInsert m.jobs jp.id { cur with p := p } },
           released := [], tried := [s] }) := by
  obtain ⟨cid, cp, cjt, cparams, cw, cr, ch⟩ := cur
  dsimp only at hh
  subst hh
  simp only [Manager.SubmitWithPolicy, hcur, hdec, freeJobID]
  by_cases heq : (req s { id := cid, p := p, JobType := cjt, params := cparams, w := cw, r := cr, h := some s }).2 = some Err.eof <;>
    simp [heq]

theorem SubmitWithPolicy_cont_none (m : Manager) (req : Req) (p : List Nat)
    (jp : JobParams) (policy : PolicyFunc) (cur : Job)
    (hcur : lookupKey m.jobs jp.id = some cur) (hdec : jp.JobType = .DECOMPRESS)
    (hh : cur.h = none) :
    m.SubmitWithPolicy req p jp policy =
      { n := 0, id := cur.id, err := some (.other 0),
        m := { m with jobs := mapInsert m.jobs jp.id { cur with p := p } },
        released := [], tried := [] } := by
  obtain ⟨cid, cp, cjt, cparams, cw, cr, ch⟩ := cur
  dsimp only at hh
  subst hh
  simp [Manager.SubmitWithPolicy, hcur, hdec]

theorem tryStrategies_jobs_dec (req : Req) (m : Manager) (job : Job)
    (prio : List StrategyType)
    (hnoeof : ∀ s : StrategyType,
       job.params.JobType = .COMPRESS → (req s job).2 ≠ some .eof)
    (hinit : ∀ kv ∈ m.jobs, kv.2.params.JobType = .DECOMPRESS) :
    ∀ kv ∈ (tryStrategies req m job prio).m.jobs,
      kv.2.params.JobType = .DECOMPRESS := by
  induction prio with
  | nil => simpa [tryStrategies] using hinit
  | cons s rest ih =>
      cases herr : (req s job).2 with
      | none =>
          cases hdir : job.params.JobType with
          | COMPRESS =>
              rw [tryStrategies_cons_compress_ok req m job s rest hdir herr]
              intro kv hkv
              exact hinit kv (mem_eraseKey hkv)
          | DECOMPRESS =>
              rw [tryStrategies_cons_dec_ok req m job s rest hdir herr]
              intro kv hkv
              rcases mem_mapInsert hkv with h | h
              · subst h
                simpa using hdir
              · exact hinit kv h
      | some e =>
          by_cases hsk : isSkipErr (some e) = true
          · rw [tryStrategies_cons_skip req m job s rest (by rw [herr]; exact hsk)]
            simpa [withTried] using ih
          · have hskf : isSkipErr (some e) = false := by
              cases hb : isSkipErr (some e)
              · rfl
              · exact absurd hb hsk
            by_cases heof : e = Err.eof
            · subst heof
              cases hdir : job.params.JobType with
              | COMPRESS => exact absurd herr (hnoeof s hdir)
              | DECOMPRESS =>
                  rw [tryStrategies_cons_dec_eof req m job s rest hdir herr]
                  intro kv hkv
                  exact hinit kv (mem_eraseKey hkv)
            · rw [tryStrategies_cons_abort req m job s rest e herr hskf heof]
              simpa using hinit

/-- Claim C9 counterexample: the claim says every Job left in the
registry after a completed call has direction decompress; but a
compress operation whose handler Request reports io.EOF is registered
and not deregistered (the completion rule deletes a compress Job only
on a nil error), so a compress Job persists in the registry. -/
theorem claim_C9_counterexample :
    ¬ (∀ kv ∈ (mgr0.SubmitWithPolicy reqEof [1] jpC polDefaultOnly).m.jobs,
         kv.2.params.JobType = Direction.DECOMPRESS) := by decide

/-- Claim C9 amended: after any completed SubmitWithPolicy call (and
hence any SubmitJob call), every Job remaining in the registry has
direction decompress, provided no handler reports io.EOF on a compress
job - the one escape the code leaves open: a compress Request
returning io.EOF leaves a registered compress Job behind.  A compress
operation whose handler succeeds with a nil error is registered and
deregistered within the same call, and one whose handler fails is
never registered. -/
theorem claim_C9_amended (m : Manager) (req : Req) (p : List Nat) (jp : JobParams)
    (policy : PolicyFunc)
    (hnoeof : ∀ (s : StrategyType) (j : Job),
       j.params.JobType = .COMPRESS → (req s j).2 ≠ some .eof)
    (hinit : ∀ kv ∈ m.jobs, kv.2.params.JobType = .DECOMPRESS) :
    ∀ kv ∈ (m.SubmitWithPolicy req p jp policy).m.jobs,
      kv.2.params.JobType = .DECOMPRESS := by
  by_cases hcont : (∃ cur, lookupKey m.jobs jp.id = some cur) ∧
      jp.JobType = .DECOMPRESS
  · obtain ⟨⟨cur, hcur⟩, hdec⟩ := hcont
    have hcurdec : cur.params.JobType = .DECOMPRESS :=
      hinit (jp.id, cur) (lookupKey_mem hcur)
    cases hch : cur.h with
    | some s =>
        rw [SubmitWithPolicy_cont m req p jp policy cur s hcur hdec hch]
        by_cases he : (req s { cur with p := p }).2 = some Err.eof
        · rw [if_pos he]
          intro kv hkv
          rcases mem_mapInsert (mem_eraseKey hkv) with h | h
          · subst h
            simpa using hcurdec
          · exact hinit kv h
        · rw [if_neg he]
          intro kv hkv
          rcases mem_mapInsert hkv with h | h
          · subst h
            simpa using hcurdec
          · exact hinit kv h
    | none =>
        rw [SubmitWithPolicy_cont_none m req p jp policy cur hcur hdec hch]
        intro kv hkv
        rcases mem_mapInsert hkv with h | h
        · subst h
          simpa using hcurdec
        · exact hinit kv h
  · have hnew : lookupKey m.jobs jp.id = none ∨ jp.JobType = .COMPRESS := by
      cases hjt : jp.JobType with
      | COMPRESS => exact Or.inr rfl
      | DECOMPRESS =>
          left
          cases hlk : lookupKey m.jobs jp.id with
          | none => rfl
          | some cur => exact absurd ⟨⟨cur, hlk⟩, hjt⟩ hcont
    rw [SubmitWithPolicy_new m req p jp policy hnew, submitNew_eq]
    exact tryStrategies_jobs_dec req _ (newJob m p jp) _
      (fun s hdir => hnoeof s (newJob m p jp) hdir) hinit

/-- Claim C9 amended witness: a successful decompress submit on a
fresh Manager, with handlers that never report EOF on compress, leaves
only decompress Jobs registered. -/
theorem claim_C9_amended_witness :
    ((mgr0.SubmitWithPolicy reqOk [1] jpD polDefaultOnly).m.jobs.all
      (fun kv => decide (kv.2.params.JobType = Direction.DECOMPRESS))) = true := by
  rw [List.all_eq_true]
  intro kv hkv
  have h := claim_C9_amended mgr0 reqOk [1] jpD polDefaultOnly
    (fun s j _ hc => Option.noConfusion hc)
    (fun kv2 hkv2 => absurd hkv2 (by simp [mgr0])) kv hkv
  simpa using h

theorem isal_skip_of_not_contains (isalReady : Bool) (o : ISALOracle)
    (h : ISALHandler) (job : Job)
    (hc : contains ISAL_ALGORITHMS job.params.a = false) :
    isSkipErr ((ISALHandler.Request isalReady o h job).1).2 = true := by
  cases isalReady <;> simp [ISALHandler.Request, hc, isSkipErr]

theorem iaa_skip_of_not_contains (ixlReady : Bool) (o : IAAOracle)
    (h : IAAHandler) (job : Job)
    (hc : contains IAA_ALGORITHMS job.params.a = false) :
    isSkipErr ((IAAHandler.Request ixlReady o h job).1).2 = true := by
  cases ixlReady <;> simp [IAAHandler.Request, hc, isSkipErr]

theorem qat_unsupported_of_not_contains (o : QatOracle) (h : QatHandler) (job : Job)
    (hc : contains QAT_ALGORITHMS job.params.a = false) :
    (QatHandler.Request o h job).1 = .ok 0 (some .unsupported) := by
  simp [QatHandler.Request, QatHandler.ready, hc]

theorem BufferSizePolicy_mem (params : PolicyParameters) (t : StrategyType)
    (ht : t ∈ BufferSizePolicy params) :
    t = .ISAL ∨ t = .IAA ∨ t = .QAT := by
  unfold BufferSizePolicy at ht
  split at ht <;> simp at ht <;> tauto

/-- Claim C10: the shipped default policy never returns the software
DEFAULT strategy; so for every new operation under the default policy
whose algorithm is in none of the ISAL, IAA and QAT capability tables
(LZ4 is the only such algorithm, carried only by the software table),
SubmitJob over the real handlers returns the all-strategies-failed
error with zero bytes, leaves the registry as it was, and never
invokes the software fallback: DEFAULT is absent from the trace of
invoked strategies, whatever the fallback oracle would answer. -/
theorem claim_C10 (m : Manager) (p : List Nat) (jp : JobParams)
    (ixlReady isalReady : Bool) (oIaa : IAAOracle) (oIsal : ISALOracle)
    (oQat : QatOracle) (hIaa : IAAHandler) (hIsal : ISALHandler) (hQat : QatHandler)
    (defaultReq : Job → Nat × Option Err)
    (hgp : m.GlobalPolicy = BufferSizePolicy)
    (hnew : lookupKey m.jobs jp.id = none ∨ jp.JobType = .COMPRESS)
    (h1 : contains ISAL_ALGORITHMS jp.a = false)
    (h2 : contains IAA_ALGORITHMS jp.a = false)
    (h3 : contains QAT_ALGORITHMS jp.a = false) :
    (∀ params : PolicyParameters, StrategyType.DEFAULT ∉ BufferSizePolicy params) ∧
    m.SubmitJob
        (reqOfHandlers ixlReady isalReady oIaa oIsal oQat hIaa hIsal hQat defaultReq)
        p jp =
      { n := 0, id := m.nextID + 1, err := some .noWorkingStrategies,
        m := { m with nextID := m.nextID + 1 }, released := [],
        tried := BufferSizePolicy { BufferSize := p.length, Strategies := m.strategies, JobParams := jp } } ∧
    StrategyType.DEFAULT ∉
      (m.SubmitJob
        (reqOfHandlers ixlReady isalReady oIaa oIsal oQat hIaa hIsal hQat defaultReq)
        p jp).tried := by
  have hnotdef : ∀ params : PolicyParameters,
      StrategyType.DEFAULT ∉ BufferSizePolicy params := by
    intro params
    unfold BufferSizePolicy
    split <;> decide
  have hpa : (newJob m p jp).params.a = jp.a := rfl
  have hall : ∀ t ∈ BufferSizePolicy { BufferSize := p.length, Strategies := m.strategies, JobParams := jp },
      isSkipErr ((reqOfHandlers ixlReady isalReady oIaa oIsal oQat hIaa hIsal hQat
        defaultReq) t (newJob m p jp)).2 = true := by
    intro t ht
    rcases BufferSizePolicy_mem _ t ht with rfl | rfl | rfl
    · simpa [reqOfHandlers] using
        isal_skip_of_not_contains isalReady oIsal hIsal (newJob m p jp)
          (by rw [hpa]; exact h1)
    · simpa [reqOfHandlers] using
        iaa_skip_of_not_contains ixlReady oIaa hIaa (newJob m p jp)
          (by rw [hpa]; exact h2)
    · have hq := qat_unsupported_of_not_contains oQat hQat (newJob m p jp)
        (by rw [hpa]; exact h3)
      simp [reqOfHandlers, hq, isSkipErr]
  have hmain : m.SubmitJob
      (reqOfHandlers ixlReady isalReady oIaa oIsal oQat hIaa hIsal hQat defaultReq)
      p jp =
      { n := 0, id := m.nextID + 1, err := some .noWorkingStrategies,
        m := { m with nextID := m.nextID + 1 }, released := [],
        tried := BufferSizePolicy { BufferSize := p.length, Strategies := m.strategies, JobParams := jp } } := by
    unfold Manager.SubmitJob
    have hsub : m.SubmitWithPolicy
        (reqOfHandlers ixlReady isalReady oIaa oIsal oQat hIaa hIsal hQat defaultReq)
        p jp m.GlobalPolicy =
        m.SubmitWithPolicy
          (reqOfHandlers ixlReady isalReady oIaa oIsal oQat hIaa hIsal hQat defaultReq)
          p jp BufferSizePolicy :=
      congrArg
        (fun pol => m.SubmitWithPolicy
          (reqOfHandlers ixlReady isalReady oIaa oIsal oQat hIaa hIsal hQat defaultReq)
          p jp pol) hgp
    rw [hsub, SubmitWithPolicy_new _ _ _ _ _ hnew, submitNew_eq,
      tryStrategies_skip_all _ _ _ _ hall]
    simp [newJob]
  refine ⟨hnotdef, hmain, ?_⟩
  rw [hmain]
  exact hnotdef _

/-- Claim C10 witness: an lz4 compress submit on a fresh Manager under
the default policy, over ready-and-idle hardware handlers, exhausts
ISAL, IAA, QAT and fails without touching the fallback. -/
theorem claim_C10_witness :
    mgr0.SubmitJob (reqOfHandlers true true oIaa0 oIsal0 oQat0 iaa0 isal0 qat0
      (fun _ => (9, none))) [1, 2] jpL =
      { n := 0, id := 1, err := some .noWorkingStrategies,
        m := { mgr0 with nextID := 1 }, released := [],
        tried := [.ISAL, .IAA, .QAT] } := by
  have h := claim_C10 mgr0 [1, 2] jpL true true oIaa0 oIsal0 oQat0 iaa0 isal0 qat0
    (fun _ => (9, none)) rfl (Or.inl rfl) (by decide) (by decide) (by decide)
  have h2 := h.2.1
  simpa [BufferSizePolicy] using h2

end Glidepack
